import Mathlib

/-!
Verification of the AppEngine-SocketPool repository: a shallow embedding of
its pure-python SHA-1 reimplementation (tlslite/pickable/pureSha1.py), the
distributed pool coordinator (socketPool.py, `PooledConnection._findConnection`
and `_saveConnection`), and the APNs notification sender (apn.py,
`APNSender.communicate` and `getNotifRequest`), together with theorems about
the specified properties.

Bytes are modelled as natural numbers, Python byte strings as `List Nat`,
32-bit machine words as naturals reduced with `&&& 0xFFFFFFFF` where the
source masks them.
-/

set_option maxRecDepth 4000

namespace SocketPool

/-! ### The pure-python SHA-1 (tlslite/pickable/pureSha1.py) -/

/-- The five 32-bit running hash words `(a, b, c, d, e)` of the digest. -/
structure Sha1Words where
  a : Nat
  b : Nat
  c : Nat
  d : Nat
  e : Nat
deriving Repr, DecidableEq

/-- `sha1.lrot`: 32-bit left rotation, `((num << b) & 0xFFFFFFFF) | (num >> 32 - b)`. -/
def lrot (num b : Nat) : Nat :=
  ((num <<< b) &&& 0xFFFFFFFF) ||| (num >>> (32 - b))

/-- `sha1.BE32`: big-endian 32-bit word from four bytes. -/
def BE32 (byteData : List Nat) : Nat :=
  ((byteData.getD 0 0) <<< 24) ||| ((byteData.getD 1 0) <<< 16) |||
    ((byteData.getD 2 0) <<< 8) ||| (byteData.getD 3 0)

/-- `sha1.intTo4Bytes`: big-endian bytes of a 32-bit word. -/
def intTo4Bytes (num : Nat) : List Nat :=
  [num >>> 24, (num >>> 16) &&& 0xFF, (num >>> 8) &&& 0xFF, num &&& 0xFF]

/-- The round constant `K` in `sha1.process`. -/
def sha1K (t : Nat) : Nat :=
  if t < 20 then 0x5a827999
  else if t < 40 then 0x6ed9eba1
  else if t < 60 then 0x8f1bbcdc
  else 0xca62c1d6

/-- The round function `f` in `sha1.process`. -/
def sha1F (t b c d : Nat) : Nat :=
  if t < 20 then (b &&& c) ||| ((b ^^^ 0xFFFFFFFF) &&& d)
  else if t < 40 then b ^^^ c ^^^ d
  else if t < 60 then (b &&& c) ||| (b &&& d) ||| (c &&& d)
  else b ^^^ c ^^^ d

/-- Message-schedule expansion: extend `W` by `n` further words, each
`lrot (W[t-3] ^ W[t-8] ^ W[t-14] ^ W[t-16]) 1` where `t` is the current length. -/
def expandW (W : List Nat) : Nat → List Nat
  | 0 => W
  | n + 1 =>
      let t := W.length
      expandW (W ++ [lrot ((W.getD (t - 3) 0) ^^^ (W.getD (t - 8) 0) ^^^
        (W.getD (t - 14) 0) ^^^ (W.getD (t - 16) 0)) 1]) n

/-- One of the 80 rounds in `sha1.process`. -/
def sha1Round (W : List Nat) (st : Sha1Words) (t : Nat) : Sha1Words :=
  let TEMP := (lrot st.a 5 + sha1F t st.b st.c st.d + st.e + W.getD t 0 + sha1K t) &&& 0xFFFFFFFF
  ⟨TEMP, st.a, lrot st.b 30, st.c, st.d⟩

/-- `sha1.process`: compress one 64-byte block into the running state. -/
def process (block : List Nat) (state : Sha1Words) : Sha1Words :=
  let W16 := (List.range 16).map (fun t => BE32 (List.take 4 (List.drop (t * 4) block)))
  let W := expandW W16 64
  let r := (List.range 80).foldl (sha1Round W) state
  ⟨(state.a + r.a) &&& 0xFFFFFFFF, (state.b + r.b) &&& 0xFFFFFFFF,
   (state.c + r.c) &&& 0xFFFFFFFF, (state.d + r.d) &&& 0xFFFFFFFF,
   (state.e + r.e) &&& 0xFFFFFFFF⟩

/-- The whole serializable state of a `sha1` object: the pending byte buffer
`unprocessedBytes`, the total byte count `size`, and the running words. -/
structure Sha1 where
  unprocessedBytes : List Nat
  size : Nat
  state : Sha1Words
deriving Repr, DecidableEq

/-- `sha1.__init__` with no initial bytes. -/
def sha1Init : Sha1 :=
  ⟨[], 0, ⟨0x67452301, 0xefcdab89, 0x98badcfe, 0x10325476, 0xc3d2e1f0⟩⟩

/-- The `while len(self.unprocessedBytes) >= 64` loop of `sha1.update`:
consume full 64-byte blocks from the front of the buffer. -/
def drain (u : List Nat) (st : Sha1Words) : List Nat × Sha1Words :=
  if h : 64 ≤ u.length then drain (u.drop 64) (process (u.take 64) st) else (u, st)
termination_by u.length
decreasing_by
  simp only [List.length_drop]
  omega

/-- `sha1.update`: extend the byte count, append to the buffer and drain blocks. -/
def update (s : Sha1) (newBytes : List Nat) : Sha1 :=
  let p := drain (s.unprocessedBytes ++ newBytes) s.state
  ⟨p.1, s.size + newBytes.length, p.2⟩

/-- A lowercase hex digit. -/
def hexChar (d : Nat) : Char :=
  Char.ofNat (if d < 10 then 48 + d else 87 + d)

/-- The `"%08x"` rendering of one 32-bit word. -/
def toHex8 (n : Nat) : List Char :=
  (List.range 8).map (fun i => hexChar ((n >>> ((7 - i) * 4)) &&& 0xF))

/-- `sha1.hexdigest`: pad a copy of the buffer, append the bit length, process
the final block(s) and render the words; the live state is not mutated. -/
def hexdigest (s : Sha1) : String :=
  let finalState := s.state
  let byteData := s.unprocessedBytes ++ [0x80]
  let step :=
    if byteData.length > 56 then
      (([] : List Nat), process (byteData ++ List.replicate (64 - byteData.length) 0) finalState)
    else (byteData, finalState)
  let byteData3 := step.1 ++ List.replicate (56 - step.1.length) 0
  let numBits := s.size * 8
  let byteData4 := byteData3 ++ intTo4Bytes ((numBits >>> 32) &&& 0xFFFFFFFF) ++
    intTo4Bytes (numBits &&& 0xFFFFFFFF)
  let finalState3 := process byteData4 step.2
  String.mk (toHex8 finalState3.a ++ toHex8 finalState3.b ++ toHex8 finalState3.c ++
    toHex8 finalState3.d ++ toHex8 finalState3.e)

/-- `sha1.copy` (and pickle-serialize-then-restore, which rebuilds the same
three attributes): a new object carrying the same buffer, count and words. -/
def copy (s : Sha1) : Sha1 :=
  ⟨s.unprocessedBytes, s.size, s.state⟩

theorem copy_eq (s : Sha1) : copy s = s := rfl

theorem drain_step (u : List Nat) (st : Sha1Words) (h : 64 ≤ u.length) :
    drain u st = drain (u.drop 64) (process (u.take 64) st) := by
  rw [drain]
  simp [h]

theorem drain_done (u : List Nat) (st : Sha1Words) (h : ¬ 64 ≤ u.length) :
    drain u st = (u, st) := by
  rw [drain]
  simp [h]

/-- Draining `u ++ B` is draining `u`, then appending `B` and draining again:
greedy block consumption commutes with appending later input. -/
theorem drain_append (u B : List Nat) (st : Sha1Words) :
    drain (u ++ B) st = drain ((drain u st).1 ++ B) (drain u st).2 := by
  induction u, st using drain.induct with
  | case1 u st h ih =>
      have h2 : 64 ≤ (u ++ B).length := by
        simp only [List.length_append]
        omega
      rw [drain_step u st h, drain_step (u ++ B) st h2,
        List.take_append_of_le_length h, List.drop_append_of_le_length h]
      exact ih
  | case2 u st h =>
      rw [drain_done u st h]

/-- `update` over a concatenation equals consecutive `update` calls. -/
theorem update_append (s : Sha1) (A B : List Nat) :
    update (update s A) B = update s (A ++ B) := by
  unfold update
  simp only [List.append_assoc, ← drain_append, List.length_append, Nat.add_assoc]

/-- C1: for all byte sequences `A` and `B` (hence for every split point of
their concatenation), hashing `A`, serializing the digest object via
`copy`/pickle-restore, updating with `B` and reading `hexdigest` yields
exactly the digest of one continuous `update` over `A ++ B`. -/
theorem sha1_restartable (A B : List Nat) :
    hexdigest (update (copy (update sha1Init A)) B) =
      hexdigest (update sha1Init (A ++ B)) := by
  rw [copy_eq, update_append]

/-! ### The pool coordinator (socketPool.py, `PooledConnection`)

Memcache is modelled as explicit state: the `poolSize_...` entry, the set of
present `lock_poolItem_i_...` keys (as a list of slot indices) and the cached
`poolItem_i_...` connection payloads (as an association list, most recent
first, mirroring overwrite-by-`set`).  One invocation of `_findConnection`
runs against this state; the outcomes of its random draws and of each
fallible memcache RPC are supplied by an explicit oracle. -/

/-- A `TLSConnection` object as far as the pool is concerned: an identity tag
and its `closed` flag. -/
structure Conn where
  tag : Nat
  closed : Bool
deriving Repr, DecidableEq

/-- The memcache entries for one pool. -/
structure PoolState where
  poolSize : Option Nat
  locks : List Nat
  conns : List (Nat × Conn)
deriving Repr, DecidableEq

/-- `memcache_get` of a slot's cached connection payload. -/
def getCachedConn (s : PoolState) (i : Nat) : Option Conn :=
  (s.conns.find? (fun p => p.1 == i)).map Prod.snd

/-- Random draws and RPC outcomes consumed by one `_findConnection` call. -/
structure Oracle where
  windowStart : Nat
  shrinkRoll : Bool
  pick : Nat
  incrOk : Bool
  incrContentionDelivered : Bool
  decrDelivered : Bool
  fetchErr : Bool
  errCode : Nat
  freshTag : Nat
deriving Repr, DecidableEq

/-- The stored pool size, with an absent entry read as 0 (Python falsy). -/
def sizeVal (s : PoolState) : Nat := s.poolSize.getD 0

/-- `getNewConnection`: a fresh, open connection (socket + TLS handshake). -/
def getNewConnection (o : Oracle) : Conn := ⟨o.freshTag, false⟩

/-- The probe set `numbers`: all of `[0, poolSize)` when `poolSize ≤ 10`, a
random contiguous window `range(index, index + 10)` with
`index = randint(0, poolSize - 10)` when `poolSize > 10`, empty when the size
entry is absent or 0. -/
def probeNumbers (s : PoolState) (o : Oracle) : List Nat :=
  if sizeVal s ≠ 0 then
    if sizeVal s > 10 then
      List.range' (o.windowStart % (sizeVal s - 10 + 1)) 10
    else
      List.range (sizeVal s)
  else []

/-- `availableIds`: the probed indices whose lock key is absent. -/
def availableIds (s : PoolState) (o : Oracle) : List Nat :=
  (probeNumbers s o).filter (fun i => ! s.locks.contains i)

/-- What one `_findConnection` invocation produced. -/
inductive FindResult where
  | ok (connId : Option Nat) (connection : Conn)
  | err (code : Nat)
deriving Repr, DecidableEq

/-- The observable outcome of one `_findConnection` invocation: the returned
value (or propagated error), the final memcache state, whether the
shrink branch (`elif len(availableIds) > 1 and ...`) was entered, the list
the leased slot was chosen from, the delta applied by the growth `incr`, and
whether the `add` on the chosen lock key failed. -/
structure FindOutcome where
  result : FindResult
  state : PoolState
  shrinkBranch : Bool
  leaseCandidates : List Nat
  grownBy : Nat
  contended : Bool
deriving Repr, DecidableEq

/-- The tail of `_findConnection` from `connId = random.choice(availableIds)`
on: fetch the cached payload, atomically `add` the lock, and either reuse or
create a connection — releasing the fresh lock and re-raising on any error —
or, when the `add` lost the race, bypass pooling, fire an `incr` by 1 and
return an unpooled fresh connection. -/
def lockAndFetch (s : PoolState) (o : Oracle) (cands : List Nat)
    (sb : Bool) (gb : Nat) : FindOutcome :=
  let connId := cands.getD (o.pick % cands.length) 0
  if s.locks.contains connId then
    let s2 := if o.incrContentionDelivered then
        { s with poolSize := some (sizeVal s + 1) } else s
    ⟨.ok none (getNewConnection o), s2, sb, cands, gb, true⟩
  else
    let s2 : PoolState := { s with locks := connId :: s.locks }
    if o.fetchErr then
      ⟨.err o.errCode, { s2 with locks := s2.locks.erase connId }, sb, cands, gb, false⟩
    else
      let connection :=
        match getCachedConn s connId with
        | none => getNewConnection o
        | some c => if c.closed then getNewConnection o else c
      ⟨.ok (some connId) connection, s2, sb, cands, gb, false⟩

/-- `PooledConnection._findConnection`, one invocation against the modelled
memcache state. -/
def findConnection (s : PoolState) (o : Oracle) : FindOutcome :=
  let avail := availableIds s o
  if avail.isEmpty then
    let increment := if sizeVal s ≠ 0 then 2 else 1
    if o.incrOk then
      let newSize := sizeVal s + increment
      let s2 : PoolState := { s with poolSize := some newSize }
      let cands := (List.range increment).map (fun i => newSize - 1 - i)
      lockAndFetch s2 o cands false increment
    else
      ⟨.ok none (getNewConnection o), s, false, [], 0, false⟩
  else
    if 1 < avail.length ∧ avail.length = (probeNumbers s o).length then
      let s2 : PoolState := if o.shrinkRoll ∧ o.decrDelivered then
          { s with poolSize := some (sizeVal s - 1) } else s
      lockAndFetch s2 o avail true 0
    else
      lockAndFetch s o avail false 0

/-- The change this invocation applied to the stored pool size. -/
def sizeDelta (s : PoolState) (o : Oracle) : Int :=
  (sizeVal (findConnection s o).state : Int) - (sizeVal s : Int)

/-- A memcache mutation issued by `_saveConnection`, in issue order. -/
inductive CacheOp where
  | setConn (slot : Nat) (value : Conn) (ttl : Nat)
  | deleteLock (slot : Nat)
deriving Repr, DecidableEq

/-- `PooledConnection._SOCKET_EXPIRE`. -/
def SOCKET_EXPIRE : Nat := 120

/-- `PooledConnection._saveConnection` as the ordered list of cache mutations
it issues: when both the slot id and the connection are present, a `set` of
the payload with TTL `_SOCKET_EXPIRE` followed by a `delete` of the lock key;
otherwise nothing. -/
def saveConnectionOps (connId : Option Nat) (connection : Option Conn) : List CacheOp :=
  match connId, connection with
  | some i, some c => [CacheOp.setConn i c SOCKET_EXPIRE, CacheOp.deleteLock i]
  | _, _ => []

/-- The effect of one cache mutation on the modelled state. -/
def applyOp (s : PoolState) : CacheOp → PoolState
  | .setConn i c _ => { s with conns := (i, c) :: s.conns }
  | .deleteLock i => { s with locks := s.locks.erase i }

/-- `PooledConnection._saveConnection` as a state transformer. -/
def saveConnection (connId : Option Nat) (connection : Option Conn)
    (s : PoolState) : PoolState :=
  (saveConnectionOps connId connection).foldl applyOp s

/-- `lockAndFetch` leaves the stored size unchanged or, when the lock `add`
lost the race and the fire-and-forget `incr` lands, one larger. -/
theorem lockAndFetch_size (s : PoolState) (o : Oracle) (cands : List Nat)
    (sb : Bool) (gb : Nat) :
    sizeVal (lockAndFetch s o cands sb gb).state = sizeVal s ∨
      sizeVal (lockAndFetch s o cands sb gb).state = sizeVal s + 1 := by
  unfold lockAndFetch
  dsimp only []
  split_ifs <;> simp [sizeVal]

/-- C2 counterexample: with stored size 1, the only probed slot locked and a
stale lock on fresh slot 2, one `_findConnection` invocation grows the pool
by 2, then loses the `add` race on the fresh slot and fires the contention
`incr`, moving the stored size from 1 to 4 — a step of +3, outside the
claimed set of per-invocation steps. -/
theorem sizeDelta_plus_three_cex :
    sizeDelta ⟨some 1, [0, 2], []⟩ ⟨0, false, 0, true, true, false, false, 0, 7⟩ = 3 ∧
      ¬ (sizeDelta ⟨some 1, [0, 2], []⟩ ⟨0, false, 0, true, true, false, false, 0, 7⟩ = -1 ∨
         sizeDelta ⟨some 1, [0, 2], []⟩ ⟨0, false, 0, true, true, false, false, 0, 7⟩ = 0 ∨
         sizeDelta ⟨some 1, [0, 2], []⟩ ⟨0, false, 0, true, true, false, false, 0, 7⟩ = 1 ∨
         sizeDelta ⟨some 1, [0, 2], []⟩ ⟨0, false, 0, true, true, false, false, 0, 7⟩ = 2) := by
  decide

/-- C2 (amended): one `_findConnection` invocation changes the stored pool
size by −1, 0, +1, +2 or +3 — the +3 step arising when a growth by 2 is
followed, in the same invocation, by the contention increment on the freshly
created slot's stale lock; no other step size is possible. -/
theorem sizeDelta_bounded (s : PoolState) (o : Oracle) :
    sizeDelta s o = -1 ∨ sizeDelta s o = 0 ∨ sizeDelta s o = 1 ∨
      sizeDelta s o = 2 ∨ sizeDelta s o = 3 := by
  have key : ∀ s2 cands sb gb,
      sizeVal (lockAndFetch s2 o cands sb gb).state = sizeVal s2 ∨
        sizeVal (lockAndFetch s2 o cands sb gb).state = sizeVal s2 + 1 :=
    fun s2 cands sb gb => lockAndFetch_size s2 o cands sb gb
  have hrange : -1 ≤ sizeDelta s o ∧ sizeDelta s o ≤ 3 := by
    unfold sizeDelta findConnection
    dsimp only []
    by_cases h1 : (availableIds s o).isEmpty = true
    · rw [if_pos h1]
      by_cases h2 : o.incrOk = true
      · rw [if_pos h2]
        rcases key { s with poolSize := some (sizeVal s + if sizeVal s ≠ 0 then 2 else 1) }
            ((List.range (if sizeVal s ≠ 0 then 2 else 1)).map
              (fun i => sizeVal s + (if sizeVal s ≠ 0 then 2 else 1) - 1 - i)) false
            (if sizeVal s ≠ 0 then 2 else 1) with h | h <;>
          rw [h] <;> simp only [sizeVal, Option.getD_some] <;> split_ifs <;> omega
      · rw [if_neg h2]
        dsimp only []
        omega
    · rw [if_neg h1]
      by_cases h3 : 1 < (availableIds s o).length ∧
          (availableIds s o).length = (probeNumbers s o).length
      · rw [if_pos h3]
        by_cases h4 : o.shrinkRoll = true ∧ o.decrDelivered = true
        · rw [if_pos h4]
          rcases key { s with poolSize := some (sizeVal s - 1) }
              (availableIds s o) true 0 with h | h <;>
            rw [h] <;> simp only [sizeVal, Option.getD_some] <;> omega
        · rw [if_neg h4]
          rcases key s (availableIds s o) true 0 with h | h <;> rw [h] <;> omega
      · rw [if_neg h3]
        rcases key s (availableIds s o) false 0 with h | h <;> rw [h] <;> omega
  omega

/-- A filter that did not shorten the list kept every element. -/
theorem filter_length_eq (p : Nat → Bool) (l : List Nat)
    (h : (l.filter p).length = l.length) : l.filter p = l := by
  induction l with
  | nil => rfl
  | cons a t ih =>
      by_cases hp : p a = true
      · rw [List.filter_cons, if_pos hp] at h ⊢
        rw [List.length_cons, List.length_cons] at h
        exact congrArg (a :: ·) (ih (Nat.succ_injective h))
      · exfalso
        have hle := List.length_filter_le p t
        rw [List.filter_cons, if_neg hp, List.length_cons] at h
        omega

/-- The `add` stage never changes which lock keys are present when it
reports an error, and the reported code is the fetch error's own. -/
theorem lockAndFetch_err (s : PoolState) (o : Oracle) (cands : List Nat)
    (sb : Bool) (gb : Nat) (c : Nat)
    (h : (lockAndFetch s o cands sb gb).result = .err c) :
    c = o.errCode ∧ (lockAndFetch s o cands sb gb).state.locks = s.locks := by
  unfold lockAndFetch at h ⊢
  dsimp only [] at h ⊢
  split_ifs at h ⊢ <;> simp_all [List.erase_cons_head]

/-- The `add` stage leaves the size entry alone, or bumps it by one on lock
contention. -/
theorem lockAndFetch_poolSize (s : PoolState) (o : Oracle) (cands : List Nat)
    (sb : Bool) (gb : Nat) :
    (lockAndFetch s o cands sb gb).state.poolSize = s.poolSize ∨
      (lockAndFetch s o cands sb gb).state.poolSize = some (sizeVal s + 1) := by
  unfold lockAndFetch
  dsimp only []
  split_ifs <;> simp

/-- The `add` stage reports back the candidate list and growth delta it was
handed. -/
theorem lockAndFetch_tags (s : PoolState) (o : Oracle) (cands : List Nat)
    (sb : Bool) (gb : Nat) :
    (lockAndFetch s o cands sb gb).grownBy = gb ∧
      (lockAndFetch s o cands sb gb).leaseCandidates = cands := by
  unfold lockAndFetch
  dsimp only []
  split_ifs <;> simp

/-- A contended `add` stage returns the unpooled fresh connection. -/
theorem lockAndFetch_contended (s : PoolState) (o : Oracle) (cands : List Nat)
    (sb : Bool) (gb : Nat)
    (h : (lockAndFetch s o cands sb gb).contended = true) :
    (lockAndFetch s o cands sb gb).result = .ok none (getNewConnection o) := by
  unfold lockAndFetch at h ⊢
  dsimp only [] at h ⊢
  split_ifs at h ⊢ <;> simp_all

/-- C3 counterexample: with stored size 11 — strictly more than 10, so the
probe is a windowed subset of ten indices — and every lock key absent, one
invocation enters the probabilistic-shrink branch and decrements the size
from 11 to 10, although the probe did not cover the whole pool. -/
theorem shrink_windowed_cex :
    (findConnection ⟨some 11, [], []⟩ ⟨0, true, 3, true, false, true, false, 0, 9⟩).shrinkBranch
        = true ∧
      10 < sizeVal ⟨some 11, [], []⟩ ∧
      (probeNumbers ⟨some 11, [], []⟩ ⟨0, true, 3, true, false, true, false, 0, 9⟩).length
        ≠ sizeVal ⟨some 11, [], []⟩ ∧
      (findConnection ⟨some 11, [], []⟩ ⟨0, true, 3, true, false, true, false, 0, 9⟩).state.poolSize
        = some 10 := by
  decide

/-- C3 (amended): the probabilistic shrink decrements the size only when
every probed index was free and more than one index was probed, whether or
not the probe covered the whole pool — with size > 10 it can fire on a fully
free ten-index window. -/
theorem shrink_requires_all_probed_free (s : PoolState) (o : Oracle)
    (h : sizeVal (findConnection s o).state < sizeVal s) :
    availableIds s o = probeNumbers s o ∧ 1 < (probeNumbers s o).length ∧
      o.shrinkRoll = true := by
  have key : ∀ s2 cands sb gb,
      sizeVal (lockAndFetch s2 o cands sb gb).state = sizeVal s2 ∨
        sizeVal (lockAndFetch s2 o cands sb gb).state = sizeVal s2 + 1 :=
    fun s2 cands sb gb => lockAndFetch_size s2 o cands sb gb
  unfold findConnection at h
  dsimp only [] at h
  by_cases h1 : (availableIds s o).isEmpty = true
  · exfalso
    rw [if_pos h1] at h
    by_cases h2 : o.incrOk = true
    · rw [if_pos h2] at h
      rcases key { s with poolSize := some (sizeVal s + if sizeVal s ≠ 0 then 2 else 1) }
          ((List.range (if sizeVal s ≠ 0 then 2 else 1)).map
            (fun i => sizeVal s + (if sizeVal s ≠ 0 then 2 else 1) - 1 - i)) false
          (if sizeVal s ≠ 0 then 2 else 1) with hk | hk <;>
        rw [hk] at h <;> simp only [sizeVal, Option.getD_some] at h <;>
          split_ifs at h <;> omega
    · rw [if_neg h2] at h
      dsimp only [] at h
      omega
  · rw [if_neg h1] at h
    by_cases h3 : 1 < (availableIds s o).length ∧
        (availableIds s o).length = (probeNumbers s o).length
    · rw [if_pos h3] at h
      by_cases h4 : o.shrinkRoll = true ∧ o.decrDelivered = true
      · refine ⟨?_, ?_, h4.1⟩
        · unfold availableIds
          exact filter_length_eq _ _ h3.2
        · exact h3.2 ▸ h3.1
      · exfalso
        rw [if_neg h4] at h
        rcases key s (availableIds s o) true 0 with hk | hk <;> rw [hk] at h <;> omega
    · exfalso
      rw [if_neg h3] at h
      rcases key s (availableIds s o) false 0 with hk | hk <;> rw [hk] at h <;> omega

/-- Witness fixing concrete inputs for `shrink_requires_all_probed_free`. -/
theorem shrink_requires_all_probed_free_witness :
    sizeVal (findConnection ⟨some 4, [], []⟩
        ⟨0, true, 1, true, false, true, false, 0, 9⟩).state < sizeVal ⟨some 4, [], []⟩ ∧
      (availableIds ⟨some 4, [], []⟩ ⟨0, true, 1, true, false, true, false, 0, 9⟩ =
          probeNumbers ⟨some 4, [], []⟩ ⟨0, true, 1, true, false, true, false, 0, 9⟩ ∧
        1 < (probeNumbers ⟨some 4, [], []⟩ ⟨0, true, 1, true, false, true, false, 0, 9⟩).length ∧
        Oracle.shrinkRoll ⟨0, true, 1, true, false, true, false, 0, 9⟩ = true) :=
  ⟨by decide, shrink_requires_all_probed_free _ _ (by decide)⟩

/-- C6: when no probed slot is free, the pool grows: the size entry is
atomically incremented by 2 when the read size was nonzero, else by 1; the
lease candidates handed to the choice-and-lock stage are exactly the newly
created highest indices `newSize - 1 - i`; the stored size afterwards
reflects that increment (plus at most the contention increment); and when
the increment itself fails, pooling is bypassed: the invocation returns
`(none, fresh connection)` and leaves the state untouched. -/
theorem grow_on_no_free_slot (s : PoolState) (o : Oracle)
    (h : availableIds s o = []) :
    (o.incrOk = false →
      findConnection s o = ⟨.ok none (getNewConnection o), s, false, [], 0, false⟩) ∧
    (o.incrOk = true →
      (findConnection s o).grownBy = (if sizeVal s ≠ 0 then 2 else 1) ∧
      (findConnection s o).leaseCandidates =
        (List.range (if sizeVal s ≠ 0 then 2 else 1)).map
          (fun i => sizeVal s + (if sizeVal s ≠ 0 then 2 else 1) - 1 - i) ∧
      ((findConnection s o).state.poolSize =
          some (sizeVal s + (if sizeVal s ≠ 0 then 2 else 1)) ∨
        (findConnection s o).state.poolSize =
          some (sizeVal s + (if sizeVal s ≠ 0 then 2 else 1) + 1)) ∧
      (∀ i ∈ (findConnection s o).leaseCandidates,
        sizeVal s ≤ i ∧ i < sizeVal s + (if sizeVal s ≠ 0 then 2 else 1))) := by
  have h1 : (availableIds s o).isEmpty = true := by rw [h]; rfl
  constructor
  · intro h2
    unfold findConnection
    dsimp only []
    rw [if_pos h1, if_neg (by simp [h2])]
  · intro h2
    unfold findConnection
    dsimp only []
    rw [if_pos h1, if_pos h2]
    refine ⟨(lockAndFetch_tags _ _ _ _ _).1, (lockAndFetch_tags _ _ _ _ _).2, ?_, ?_⟩
    · rcases lockAndFetch_poolSize
          { s with poolSize := some (sizeVal s + if sizeVal s ≠ 0 then 2 else 1) } o
          ((List.range (if sizeVal s ≠ 0 then 2 else 1)).map
            (fun i => sizeVal s + (if sizeVal s ≠ 0 then 2 else 1) - 1 - i)) false
          (if sizeVal s ≠ 0 then 2 else 1) with hk | hk <;> rw [hk] <;>
        simp [sizeVal]
    · rw [(lockAndFetch_tags _ _ _ _ _).2]
      intro i hi
      rw [List.mem_map] at hi
      obtain ⟨j, hj, rfl⟩ := hi
      rw [List.mem_range] at hj
      split_ifs at hj ⊢ <;> omega

/-- Witness fixing concrete inputs for `grow_on_no_free_slot`: a pool of
size 1 whose only slot is locked (grow by 2, candidates slots 2 and 1), and
an empty pool with a failing increment (bypass). -/
theorem grow_on_no_free_slot_witness :
    ((findConnection ⟨some 1, [0], []⟩ ⟨0, false, 0, true, false, false, false, 0, 7⟩).grownBy = 2 ∧
      (findConnection ⟨some 1, [0], []⟩
          ⟨0, false, 0, true, false, false, false, 0, 7⟩).leaseCandidates = [2, 1]) ∧
    findConnection ⟨none, [], []⟩ ⟨0, false, 0, false, false, false, false, 0, 7⟩ =
      ⟨.ok none (getNewConnection ⟨0, false, 0, false, false, false, false, 0, 7⟩),
        ⟨none, [], []⟩, false, [], 0, false⟩ :=
  ⟨⟨by have hg := (grow_on_no_free_slot ⟨some 1, [0], []⟩
        ⟨0, false, 0, true, false, false, false, 0, 7⟩ (by decide)).2 rfl
       exact hg.1.trans (by decide),
    by have hg := (grow_on_no_free_slot ⟨some 1, [0], []⟩
        ⟨0, false, 0, true, false, false, false, 0, 7⟩ (by decide)).2 rfl
       exact hg.2.1.trans (by decide)⟩,
   (grow_on_no_free_slot ⟨none, [], []⟩
      ⟨0, false, 0, false, false, false, false, 0, 7⟩ (by decide)).1 rfl⟩

/-- C7: when the atomic add-if-absent on the chosen slot's lock key finds the
lock already held, the call does not retry any slot: the stage returns slot
id `none` with a freshly created unpooled connection, leaves every lock key
as it was, and the fire-and-forget increment moves the size entry up by 1
(when the cache delivers it). `lockAndFetch` is the choice-and-lock tail of
`_findConnection`, invoked by it in every non-bypass branch; the second
conjunct lifts the unpooled-return part to the whole invocation. -/
theorem lock_contention_unpooled (s : PoolState) (o : Oracle) :
    (∀ cands sb gb, cands ≠ [] →
      s.locks.contains (cands.getD (o.pick % cands.length) 0) = true →
      lockAndFetch s o cands sb gb =
        ⟨.ok none (getNewConnection o),
          (if o.incrContentionDelivered then
            { s with poolSize := some (sizeVal s + 1) } else s),
          sb, cands, gb, true⟩) ∧
    ((findConnection s o).contended = true →
      (findConnection s o).result = .ok none (getNewConnection o)) := by
  constructor
  · intro cands sb gb _ hlock
    unfold lockAndFetch
    dsimp only []
    rw [if_pos hlock]
  · intro h
    unfold findConnection at h ⊢
    dsimp only [] at h ⊢
    split_ifs at h ⊢ <;>
      first
      | exact lockAndFetch_contended _ _ _ _ _ h
      | simp_all

/-- Witness fixing concrete inputs for `lock_contention_unpooled`. -/
theorem lock_contention_unpooled_witness :
    lockAndFetch ⟨some 3, [1], []⟩ ⟨0, false, 0, true, true, false, false, 0, 7⟩ [1, 2] false 0 =
      ⟨.ok none (getNewConnection ⟨0, false, 0, true, true, false, false, 0, 7⟩),
        ⟨some 4, [1], []⟩, false, [1, 2], 0, true⟩ :=
  ((lock_contention_unpooled ⟨some 3, [1], []⟩
      ⟨0, false, 0, true, true, false, false, 0, 7⟩).1 [1, 2] false 0
    (by decide) (by decide)).trans (by decide)

/-- C8: when fetching the cached payload or creating the replacement
connection fails after the slot's lock key was successfully added, the stage
first deletes the just-acquired lock and then propagates that same error:
the outcome is exactly `err errCode` with the state as before the `add`.
The second conjunct lifts this to the whole `_findConnection` invocation:
any propagated error carries the fetch error's code and leaves the lock keys
exactly as they were before the call — no lock is ever left held on the
error path. -/
theorem fetch_error_releases_lock (s : PoolState) (o : Oracle) :
    (∀ cands sb gb,
      s.locks.contains (cands.getD (o.pick % cands.length) 0) = false →
      o.fetchErr = true →
      lockAndFetch s o cands sb gb = ⟨.err o.errCode, s, sb, cands, gb, false⟩) ∧
    (∀ c, (findConnection s o).result = .err c →
      c = o.errCode ∧ (findConnection s o).state.locks = s.locks) := by
  constructor
  · intro cands sb gb hlock herr
    unfold lockAndFetch
    dsimp only []
    rw [if_neg (by rw [hlock]; simp), if_pos herr]
    rw [List.erase_cons_head]
  · intro c h
    unfold findConnection at h ⊢
    dsimp only [] at h ⊢
    split_ifs at h ⊢ <;>
      first
      | exact lockAndFetch_err _ _ _ _ _ _ h
      | simp_all

/-- Witness fixing concrete inputs for `fetch_error_releases_lock`. -/
theorem fetch_error_releases_lock_witness :
    lockAndFetch ⟨some 3, [1], []⟩ ⟨0, false, 0, true, false, false, true, 42, 7⟩ [0, 2] false 0 =
      ⟨.err 42, ⟨some 3, [1], []⟩, false, [0, 2], 0, false⟩ :=
  (fetch_error_releases_lock ⟨some 3, [1], []⟩
      ⟨0, false, 0, true, false, false, true, 42, 7⟩).1 [0, 2] false 0
    (by decide) (by decide)

/-- C9: `_saveConnection` issues, in this order, a `set` of the connection
payload under the slot's key with TTL 120 seconds and then a `delete` of the
slot's lock key, when both the slot id and the connection are present; when
the slot id is `none` it issues no store and no lock deletion at all. -/
theorem saveConnection_order (connId : Option Nat) (connection : Option Conn) :
    (∀ i c, connId = some i → connection = some c →
      saveConnectionOps connId connection =
        [CacheOp.setConn i c 120, CacheOp.deleteLock i]) ∧
    (connId = none → saveConnectionOps connId connection = []) := by
  constructor
  · rintro i c rfl rfl
    rfl
  · rintro rfl
    cases connection <;> rfl

/-- Witness fixing concrete inputs for `saveConnection_order`. -/
theorem saveConnection_order_witness :
    saveConnectionOps (some 3) (some ⟨5, false⟩) =
        [CacheOp.setConn 3 ⟨5, false⟩ 120, CacheOp.deleteLock 3] ∧
      saveConnectionOps none (some ⟨5, false⟩) = [] :=
  ⟨(saveConnection_order (some 3) (some ⟨5, false⟩)).1 3 ⟨5, false⟩ rfl rfl,
   (saveConnection_order none (some ⟨5, false⟩)).2 rfl⟩

/-! ### The notification sender (apn.py)

`getNotifRequest` is embedded over its interface domain: the message and the
context values are text (the source decodes byte strings as UTF-8 before
use), the context is the flat key-value mapping the interface describes,
rendered as an association list.  `json.dumps(..., separators=(',', ':'),
ensure_ascii=False)` is embedded byte-exactly; a Python dict serializes its
entries in an unspecified order, which the model fixes to insertion order —
the encoded byte length, the only property consumed, is order-independent. -/

/-- UTF-8 encoding of one character. -/
def utf8Bytes (c : Char) : List Nat :=
  let n := c.toNat
  if n < 0x80 then [n]
  else if n < 0x800 then [0xC0 ||| (n >>> 6), 0x80 ||| (n &&& 0x3F)]
  else if n < 0x10000 then
    [0xE0 ||| (n >>> 12), 0x80 ||| ((n >>> 6) &&& 0x3F), 0x80 ||| (n &&& 0x3F)]
  else
    [0xF0 ||| (n >>> 18), 0x80 ||| ((n >>> 12) &&& 0x3F),
     0x80 ||| ((n >>> 6) &&& 0x3F), 0x80 ||| (n &&& 0x3F)]

/-- `json.dumps` escaping of one character with `ensure_ascii=False`: only
the quote, the backslash and control characters are escaped. -/
def jsonEscapeChar (c : Char) : List Char :=
  if c = Char.ofNat 34 then [Char.ofNat 92, Char.ofNat 34]
  else if c = Char.ofNat 92 then [Char.ofNat 92, Char.ofNat 92]
  else if c.toNat < 32 then
    if c.toNat = 8 then [Char.ofNat 92, 'b']
    else if c.toNat = 9 then [Char.ofNat 92, 't']
    else if c.toNat = 10 then [Char.ofNat 92, 'n']
    else if c.toNat = 12 then [Char.ofNat 92, 'f']
    else if c.toNat = 13 then [Char.ofNat 92, 'r']
    else [Char.ofNat 92, 'u', '0', '0', hexChar (c.toNat / 16), hexChar (c.toNat % 16)]
  else [c]

/-- A JSON string literal. -/
def jsonString (s : String) : List Char :=
  [Char.ofNat 34] ++ (s.data.map jsonEscapeChar).join ++ [Char.ofNat 34]

/-- A JSON integer literal. -/
def renderInt (n : Int) : List Char := (toString n).data

/-- The members of a JSON object with `separators=(',', ':')`: values are
already rendered. -/
def renderFields : List (String × List Char) → List Char
  | [] => []
  | [f] => jsonString f.1 ++ [':'] ++ f.2
  | f :: g :: fs => jsonString f.1 ++ [':'] ++ f.2 ++ [','] ++ renderFields (g :: fs)

/-- A JSON object with `separators=(',', ':')`. -/
def renderObj (fields : List (String × List Char)) : List Char :=
  [Char.ofNat 123] ++ renderFields fields ++ [Char.ofNat 125]

/-- The `payload['aps']` dict built by `getNotifRequest`, in insertion
order: `alert`, then `content-available` when `hasContent`, then `badge`
when given, then `sound` when truthy (present and nonempty). -/
def apsFields (message : String) (badge : Option Int) (soundName : Option String)
    (hasContent : Bool) : List (String × List Char) :=
  [("alert", jsonString message)] ++
    (if hasContent then [("content-available", renderInt 1)] else []) ++
    (match badge with
     | some b => [("badge", renderInt b)]
     | none => []) ++
    (match soundName with
     | some snd => if snd = "" then [] else [("sound", jsonString snd)]
     | none => [])

/-- The serialized JSON payload of `getNotifRequest`: the context entries
(its `aps` key, if any, is overwritten by the nested `aps` object). -/
def notifPayloadChars (message : String) (badge : Option Int)
    (soundName : Option String) (context : Option (List (String × String)))
    (hasContent : Bool) : List Char :=
  let ctxPairs :=
    match context with
    | some ctx => (ctx.filter (fun p => p.1 != "aps")).map (fun p => (p.1, jsonString p.2))
    | none => []
  renderObj (ctxPairs ++ [("aps", renderObj (apsFields message badge soundName hasContent))])

/-- The UTF-8 bytes of the serialized JSON payload. -/
def notifPayloadBytes (message : String) (badge : Option Int)
    (soundName : Option String) (context : Option (List (String × String)))
    (hasContent : Bool) : List Nat :=
  ((notifPayloadChars message badge soundName context hasContent).map utf8Bytes).join

/-- The value of one hex digit, either case, as `binascii.unhexlify`
accepts it. -/
def hexVal (c : Char) : Option Nat :=
  if 48 ≤ c.toNat ∧ c.toNat ≤ 57 then some (c.toNat - 48)
  else if 97 ≤ c.toNat ∧ c.toNat ≤ 102 then some (c.toNat - 87)
  else if 65 ≤ c.toNat ∧ c.toNat ≤ 70 then some (c.toNat - 55)
  else none

/-- `binascii.unhexlify`: the decoded bytes, or `none` (the `TypeError` the
source catches) on an odd-length input or a non-hex digit. -/
def unhexlify : List Char → Option (List Nat)
  | [] => some []
  | [_] => none
  | c1 :: c2 :: rest =>
      match hexVal c1, hexVal c2, unhexlify rest with
      | some hi, some lo, some bs => some ((16 * hi + lo) :: bs)
      | _, _, _ => none

/-- `getNotifRequest`: build the payload dict, serialize it, return the
failure sentinel (`none`, Python `False`) when the encoded JSON exceeds 256
bytes or the token is not valid hex, else the (binary token, payload bytes)
pair. -/
def getNotifRequest (token message : String) (badge : Option Int)
    (soundName : Option String) (context : Option (List (String × String)))
    (hasContent : Bool) : Option (List Nat × List Nat) :=
  if 256 < (notifPayloadBytes message badge soundName context hasContent).length then
    none
  else
    match unhexlify token.data with
    | none => none
    | some bs => some (bs, notifPayloadBytes message badge soundName context hasContent)

/-- A big-endian 16-bit field, as `struct.pack("!H", n)` emits for `n < 2^16`. -/
def be16 (n : Nat) : List Nat := [(n >>> 8) &&& 0xFF, n &&& 0xFF]

/-- The `32s` field of `struct.pack`: truncate to 32 bytes, zero-pad shorter
input. -/
def pack32s (t : List Nat) : List Nat :=
  t.take 32 ++ List.replicate (32 - t.length) 0

/-- The APNs frame built in `APNSender.communicate`:
`struct.pack("!cH32sH%ds" % len(payload), chr(0), 32, token, len(payload), payload)`. -/
def packFrame (token payload : List Nat) : List Nat :=
  [0] ++ be16 32 ++ pack32s token ++ be16 payload.length ++ payload

/-- The environment `APNSender.communicate` runs against: whether the write
of the request at a given list position succeeds on the current connection,
whether its retry write on the fresh replacement succeeds, and the identity
tags handed out by `getNewConnection`, in creation order. -/
structure World where
  firstOk : Nat → Bool
  retryOk : Nat → Bool
  freshTags : Nat → Nat

/-- `APNSender.communicate`: iterate over the requests, skipping falsy
entries; pack each frame and write it; on an `IOError` obtain one fresh
connection and write the same frame once more, this time propagating any
failure (`Except.error` carries the failing request's position).  Returns
the final connection — the input one or the last replacement — with the
number of fresh connections obtained and the frames written, in order. -/
def communicate (w : World) :
    List (Option (List Nat × List Nat)) → Conn → Nat → Nat → List (List Nat) →
      Except Nat (Conn × Nat × List (List Nat))
  | [], conn, _, _fresh, tr => .ok (conn, _fresh, tr)
  | none :: rest, conn, i, fresh, tr => communicate w rest conn (i + 1) fresh tr
  | some (tok, payload) :: rest, conn, i, fresh, tr =>
      let msg := packFrame tok payload
      if w.firstOk i then communicate w rest conn (i + 1) fresh (tr ++ [msg])
      else
        let conn2 : Conn := ⟨w.freshTags fresh, false⟩
        if w.retryOk i then communicate w rest conn2 (i + 1) (fresh + 1) (tr ++ [msg, msg])
        else .error i

/-- The positions of the non-falsy requests, counting from `i`. -/
def activeIdxFrom (i : Nat) : List (Option (List Nat × List Nat)) → List Nat
  | [] => []
  | none :: rest => activeIdxFrom (i + 1) rest
  | some _ :: rest => i :: activeIdxFrom (i + 1) rest

/-- `PooledConnection.runAsync`: lease via `_findConnection`, run
`communicate` on the leased connection, then hand exactly the connection
`communicate` returned — original or replacement — to `_saveConnection`
together with the leased slot id. -/
def runAsyncModel (s : PoolState) (o : Oracle) (w : World)
    (reqs : List (Option (List Nat × List Nat))) : Except Nat PoolState :=
  let out := findConnection s o
  match out.result with
  | .err c => .error c
  | .ok connId conn =>
      match communicate w reqs conn 0 0 [] with
      | .error c => .error c
      | .ok (conn2, _, _) => .ok (saveConnection connId (some conn2) out.state)

/-- C4: over its interface domain (text message, flat key-value context),
`getNotifRequest` is a total function into an option type — it never raises
— and it returns the failure sentinel exactly when the encoded JSON payload
exceeds 256 bytes or the token is not valid hex; when the payload fits and
the token decodes, it returns the (binary token, payload bytes) pair. -/
theorem getNotifRequest_sentinel (token message : String) (badge : Option Int)
    (soundName : Option String) (context : Option (List (String × String)))
    (hasContent : Bool) :
    (getNotifRequest token message badge soundName context hasContent = none ↔
      (256 < (notifPayloadBytes message badge soundName context hasContent).length ∨
        unhexlify token.data = none)) ∧
    ((notifPayloadBytes message badge soundName context hasContent).length ≤ 256 →
      ∀ bs, unhexlify token.data = some bs →
        getNotifRequest token message badge soundName context hasContent =
          some (bs, notifPayloadBytes message badge soundName context hasContent)) := by
  constructor
  · unfold getNotifRequest
    by_cases h : 256 < (notifPayloadBytes message badge soundName context hasContent).length
    · simp [h]
    · cases hx : unhexlify token.data <;> simp [h, hx]
  · intro hle bs hbs
    unfold getNotifRequest
    rw [if_neg (by omega), hbs]

/-- Witness fixing concrete inputs for `getNotifRequest_sentinel`. -/
theorem getNotifRequest_sentinel_witness :
    (notifPayloadBytes "hi" none (some "default") none true).length ≤ 256 ∧
      unhexlify ("ab".data) = some [171] ∧
      getNotifRequest "ab" "hi" none (some "default") none true =
        some ([171], notifPayloadBytes "hi" none (some "default") none true) :=
  ⟨by decide, by decide,
   (getNotifRequest_sentinel "ab" "hi" none (some "default") none true).2
     (by decide) [171] (by decide)⟩

/-- An environment whose writes always succeed. -/
def wOk : World := ⟨fun _ => true, fun _ => true, fun k => k⟩

/-- Success characterization of `communicate`, generalized over the loop
accumulators: the fresh-connection counter ends at its start value plus one
per request whose first write failed, the trace grows by one frame per
request plus one extra frame (the single retry) per first-write failure,
and the returned connection is the input one when no write failed, else the
last replacement created. -/
theorem communicate_ok (w : World) (reqs : List (Option (List Nat × List Nat))) :
    ∀ c i fresh tr c2 n tr2, communicate w reqs c i fresh tr = .ok (c2, n, tr2) →
      n = fresh + (activeIdxFrom i reqs).countP (fun j => ! w.firstOk j) ∧
      tr2.length = tr.length + (activeIdxFrom i reqs).length +
        (activeIdxFrom i reqs).countP (fun j => ! w.firstOk j) ∧
      c2 = (if (activeIdxFrom i reqs).countP (fun j => ! w.firstOk j) = 0 then c
            else ⟨w.freshTags (n - 1), false⟩) := by
  induction reqs with
  | nil =>
      intro c i fresh tr c2 n tr2 h
      simp only [communicate, Except.ok.injEq, Prod.mk.injEq] at h
      obtain ⟨rfl, rfl, rfl⟩ := h
      simp [activeIdxFrom]
  | cons r rest ih =>
      intro c i fresh tr c2 n tr2 h
      match r with
      | none =>
          rw [show communicate w (none :: rest) c i fresh tr =
            communicate w rest c (i + 1) fresh tr from rfl] at h
          simpa [activeIdxFrom] using ih c (i + 1) fresh tr c2 n tr2 h
      | some (tok, payload) =>
          rw [show communicate w (some (tok, payload) :: rest) c i fresh tr =
            (if w.firstOk i then
              communicate w rest c (i + 1) fresh (tr ++ [packFrame tok payload])
            else if w.retryOk i then
              communicate w rest ⟨w.freshTags fresh, false⟩ (i + 1) (fresh + 1)
                (tr ++ [packFrame tok payload, packFrame tok payload])
            else .error i) from rfl] at h
          by_cases hf : w.firstOk i = true
          · rw [if_pos hf] at h
            obtain ⟨h1, h2, h3⟩ := ih c (i + 1) fresh (tr ++ [packFrame tok payload]) c2 n tr2 h
            have hcp : (activeIdxFrom i (some (tok, payload) :: rest)).countP
                  (fun j => ! w.firstOk j) =
                (activeIdxFrom (i + 1) rest).countP (fun j => ! w.firstOk j) := by
              simp [activeIdxFrom, List.countP_cons, hf]
            have hlen : (activeIdxFrom i (some (tok, payload) :: rest)).length =
                (activeIdxFrom (i + 1) rest).length + 1 := by
              simp [activeIdxFrom]
            rw [hcp, hlen]
            refine ⟨h1, ?_, h3⟩
            simp only [List.length_append, List.length_cons, List.length_nil] at h2
            omega
          · rw [if_neg hf] at h
            rw [Bool.not_eq_true] at hf
            by_cases hr : w.retryOk i = true
            · rw [if_pos hr] at h
              obtain ⟨h1, h2, h3⟩ := ih ⟨w.freshTags fresh, false⟩ (i + 1) (fresh + 1)
                (tr ++ [packFrame tok payload, packFrame tok payload]) c2 n tr2 h
              have hcp : (activeIdxFrom i (some (tok, payload) :: rest)).countP
                    (fun j => ! w.firstOk j) =
                  (activeIdxFrom (i + 1) rest).countP (fun j => ! w.firstOk j) + 1 := by
                simp [activeIdxFrom, List.countP_cons, hf]
              have hlen : (activeIdxFrom i (some (tok, payload) :: rest)).length =
                  (activeIdxFrom (i + 1) rest).length + 1 := by
                simp [activeIdxFrom]
              rw [hcp, hlen]
              refine ⟨by omega, ?_, ?_⟩
              · simp only [List.length_append, List.length_cons, List.length_nil] at h2
                omega
              · rw [if_neg (Nat.succ_ne_zero _)]
                by_cases hz : (activeIdxFrom (i + 1) rest).countP (fun j => ! w.firstOk j) = 0
                · rw [if_pos hz] at h3
                  rw [h3]
                  have hn1 : n - 1 = fresh := by omega
                  rw [hn1]
                · rw [if_neg hz] at h3
                  exact h3
            · rw [if_neg hr] at h
              exact absurd h (by simp)

/-- Error characterization of `communicate`: a propagated error is the
position of a non-falsy request whose first write and single retry both
failed. -/
theorem communicate_err (w : World) (reqs : List (Option (List Nat × List Nat))) :
    ∀ c i fresh tr j, communicate w reqs c i fresh tr = .error j →
      j ∈ activeIdxFrom i reqs ∧ w.firstOk j = false ∧ w.retryOk j = false := by
  induction reqs with
  | nil =>
      intro c i fresh tr j h
      exact absurd h (by simp [communicate])
  | cons r rest ih =>
      intro c i fresh tr j h
      match r with
      | none =>
          rw [show communicate w (none :: rest) c i fresh tr =
            communicate w rest c (i + 1) fresh tr from rfl] at h
          have := ih c (i + 1) fresh tr j h
          exact ⟨by simp [activeIdxFrom, this.1], this.2⟩
      | some (tok, payload) =>
          rw [show communicate w (some (tok, payload) :: rest) c i fresh tr =
            (if w.firstOk i then
              communicate w rest c (i + 1) fresh (tr ++ [packFrame tok payload])
            else if w.retryOk i then
              communicate w rest ⟨w.freshTags fresh, false⟩ (i + 1) (fresh + 1)
                (tr ++ [packFrame tok payload, packFrame tok payload])
            else .error i) from rfl] at h
          by_cases hf : w.firstOk i = true
          · rw [if_pos hf] at h
            have := ih c (i + 1) fresh (tr ++ [packFrame tok payload]) j h
            exact ⟨by simp [activeIdxFrom, this.1], this.2⟩
          · rw [if_neg hf] at h
            rw [Bool.not_eq_true] at hf
            by_cases hr : w.retryOk i = true
            · rw [if_pos hr] at h
              have := ih ⟨w.freshTags fresh, false⟩ (i + 1) (fresh + 1)
                (tr ++ [packFrame tok payload, packFrame tok payload]) j h
              exact ⟨by simp [activeIdxFrom, this.1], this.2⟩
            · rw [if_neg hr] at h
              rw [Bool.not_eq_true] at hr
              injection h with h
              subst h
              exact ⟨by simp [activeIdxFrom], hf, hr⟩

/-- `communicate` succeeds exactly when every non-falsy request's write
succeeds on the first try or on the single retry. -/
theorem communicate_isOk_iff (w : World) (reqs : List (Option (List Nat × List Nat))) :
    ∀ c i fresh tr, (∃ r, communicate w reqs c i fresh tr = .ok r) ↔
      ∀ j ∈ activeIdxFrom i reqs, (w.firstOk j || w.retryOk j) = true := by
  induction reqs with
  | nil =>
      intro c i fresh tr
      simp [communicate, activeIdxFrom]
  | cons r rest ih =>
      intro c i fresh tr
      match r with
      | none =>
          rw [show communicate w (none :: rest) c i fresh tr =
            communicate w rest c (i + 1) fresh tr from rfl]
          simpa [activeIdxFrom] using ih c (i + 1) fresh tr
      | some (tok, payload) =>
          rw [show communicate w (some (tok, payload) :: rest) c i fresh tr =
            (if w.firstOk i then
              communicate w rest c (i + 1) fresh (tr ++ [packFrame tok payload])
            else if w.retryOk i then
              communicate w rest ⟨w.freshTags fresh, false⟩ (i + 1) (fresh + 1)
                (tr ++ [packFrame tok payload, packFrame tok payload])
            else .error i) from rfl]
          by_cases hf : w.firstOk i = true
          · rw [if_pos hf]
            rw [ih c (i + 1) fresh (tr ++ [packFrame tok payload])]
            simp [activeIdxFrom, hf]
          · rw [if_neg hf]
            rw [Bool.not_eq_true] at hf
            by_cases hr : w.retryOk i = true
            · rw [if_pos hr]
              rw [ih ⟨w.freshTags fresh, false⟩ (i + 1) (fresh + 1)
                (tr ++ [packFrame tok payload, packFrame tok payload])]
              simp [activeIdxFrom, hf, hr]
            · rw [if_neg hr]
              rw [Bool.not_eq_true] at hr
              simp [activeIdxFrom, hf, hr]

/-- C5: for every request list and failure pattern, `APNSender.communicate`
obtains exactly one fresh connection per request whose write on the current
connection fails, retries that write exactly once (one extra frame per
failure in the written trace), succeeds exactly when every request gets
through within the single allowed retry, propagates the second failure of a
twice-failing request to the caller, and the connection it returns —
original or last replacement — is exactly the one `runAsync` hands to
`_saveConnection` for release into the leased slot. -/
theorem communicate_retry_once (w : World)
    (reqs : List (Option (List Nat × List Nat))) (c : Conn) :
    (∀ c2 n tr, communicate w reqs c 0 0 [] = .ok (c2, n, tr) →
        n = (activeIdxFrom 0 reqs).countP (fun j => ! w.firstOk j) ∧
        tr.length = (activeIdxFrom 0 reqs).length + n ∧
        c2 = (if n = 0 then c else ⟨w.freshTags (n - 1), false⟩)) ∧
    (∀ j, communicate w reqs c 0 0 [] = .error j →
        j ∈ activeIdxFrom 0 reqs ∧ w.firstOk j = false ∧ w.retryOk j = false) ∧
    ((∃ r, communicate w reqs c 0 0 [] = .ok r) ↔
        ∀ j ∈ activeIdxFrom 0 reqs, (w.firstOk j || w.retryOk j) = true) ∧
    (∀ s o i conn c2 n tr,
        (findConnection s o).result = .ok (some i) conn →
        communicate w reqs conn 0 0 [] = .ok (c2, n, tr) →
        ∃ s2, runAsyncModel s o w reqs = .ok s2 ∧ getCachedConn s2 i = some c2) := by
  refine ⟨?_, fun j h => communicate_err w reqs c 0 0 [] j h,
    communicate_isOk_iff w reqs c 0 0 [], ?_⟩
  · intro c2 n tr h
    obtain ⟨h1, h2, h3⟩ := communicate_ok w reqs c 0 0 [] c2 n tr h
    rw [Nat.zero_add] at h1
    refine ⟨h1, ?_, ?_⟩
    · simp only [List.length_nil, Nat.zero_add] at h2
      omega
    · rw [h3, h1]
  · intro s o i conn c2 n tr hres hcomm
    refine ⟨saveConnection (some i) (some c2) (findConnection s o).state, ?_, ?_⟩
    · unfold runAsyncModel
      dsimp only []
      rw [hres]
      dsimp only []
      rw [hcomm]
    · simp [saveConnection, saveConnectionOps, applyOp, getCachedConn]

/-- Concrete environment for the retry witness: the write of the request at
position 0 fails once on the leased connection, every retry succeeds. -/
def wEx : World := ⟨fun j => decide (j ≠ 0), fun _ => true, fun k => 100 + k⟩

/-- Concrete request list for the retry witness. -/
def reqsEx : List (Option (List Nat × List Nat)) := [some ([1], [2]), some ([3], [4])]

/-- Witness fixing concrete inputs for `communicate_retry_once`. -/
theorem communicate_retry_once_witness :
    communicate wEx reqsEx ⟨5, false⟩ 0 0 [] =
        .ok (⟨100, false⟩, 1, [packFrame [1] [2], packFrame [1] [2], packFrame [3] [4]]) ∧
      ((1 : Nat) = (activeIdxFrom 0 reqsEx).countP (fun j => ! wEx.firstOk j) ∧
        ([packFrame [1] [2], packFrame [1] [2], packFrame [3] [4]] :
            List (List Nat)).length = (activeIdxFrom 0 reqsEx).length + 1 ∧
        (⟨100, false⟩ : Conn) =
          (if (1 : Nat) = 0 then (⟨5, false⟩ : Conn) else ⟨wEx.freshTags (1 - 1), false⟩)) :=
  ⟨rfl,
   (communicate_retry_once wEx reqsEx ⟨5, false⟩).1 ⟨100, false⟩ 1
     [packFrame [1] [2], packFrame [1] [2], packFrame [3] [4]] rfl⟩

/-- C10: `getNotifRequest` never validates the decoded token's length — for
the valid hex token `"abcd"`, whose decoding is 2 bytes rather than 32, it
returns a success pair — and `APNSender.communicate` packs that short token
into the fixed `32s` struct field, zero-padded to 32 bytes, while the
frame's 2-byte token-length field is the constant 32 for every token; the
frame `communicate` writes for this request is exactly that packing. -/
theorem token_length_unvalidated :
    getNotifRequest "abcd" "hi" none (some "default") none true =
        some ([171, 205], notifPayloadBytes "hi" none (some "default") none true) ∧
      ([171, 205] : List Nat).length ≠ 32 ∧
      pack32s [171, 205] = [171, 205] ++ List.replicate 30 0 ∧
      (∀ t p : List Nat, (packFrame t p).take 3 = [0, 0, 32]) ∧
      communicate wOk
          [some ([171, 205], notifPayloadBytes "hi" none (some "default") none true)]
          ⟨0, false⟩ 0 0 [] =
        .ok (⟨0, false⟩, 0,
          [packFrame [171, 205] (notifPayloadBytes "hi" none (some "default") none true)]) := by
  refine ⟨by decide, by decide, by decide, fun t p => rfl, rfl⟩

end SocketPool
